/-
Verification of the Pong simulation core (src/type.py).

Shallow embedding notes:
* Python floats and pygame's integer `Rect` coordinates are idealized to real
  numbers (`ℝ`); all arithmetic in the source is mirrored exactly otherwise.
  `int(y)` in `Paddle.move_to` is the identity on the integer mouse
  coordinates the program feeds it, and `PADDLE_H // 2 = PADDLE_H / 2` since
  `PADDLE_H = 100` is even, so both are written with real division.
* The random draws (`random.uniform(-pi/6, pi/6)` and `random.choice([-1,1])`
  inside `Ball.reset`) are passed as explicit parameters: an angle, with the
  hypothesis that it lies in the drawn range, and a boolean coin.
* The per-tick event queue is modelled as a snapshot (`Input`): at most one
  SPACE press, one R press and one MOUSEMOTION per tick, applied in the
  source's branch order, followed by the held-key scan.  The QUIT/ESCAPE
  events only clear the `running` flag and are outside every claim, so the
  embedded `tick` is the loop body for one iteration with `running` true.
-/
import Mathlib

namespace Pong

open scoped Classical

noncomputable section

/-- Field width (`WIDTH = 800`). -/
def WIDTH : ℝ := 800
/-- Field height (`HEIGHT = 500`). -/
def HEIGHT : ℝ := 500
/-- Paddle width (`PADDLE_W = 12`). -/
def PADDLE_W : ℝ := 12
/-- Paddle height (`PADDLE_H = 100`). -/
def PADDLE_H : ℝ := 100
/-- Paddle offset from the edge (`PADDLE_OFFSET = 20`). -/
def PADDLE_OFFSET : ℝ := 20
/-- Human paddle key speed (`PLAYER_SPEED = 7`). -/
def PLAYER_SPEED : ℝ := 7
/-- AI paddle speed cap (`AI_MAX_SPEED = 5`). -/
def AI_MAX_SPEED : ℝ := 5
/-- Ball radius (`BALL_RADIUS = 8`). -/
def BALL_RADIUS : ℝ := 8
/-- Ball base speed (`BALL_SPEED = 5`). -/
def BALL_SPEED : ℝ := 5
/-- Ball speed increment per paddle rebound (`BALL_SPEED_INC = 0.5`). -/
def BALL_SPEED_INC : ℝ := 0.5
/-- Ball speed cap (`BALL_MAX_SPEED = 14`). -/
def BALL_MAX_SPEED : ℝ := 14

/-- `math.hypot` on two arguments. -/
def hypot (a b : ℝ) : ℝ := Real.sqrt (a * a + b * b)

/-- A pygame-style axis-aligned rectangle: top-left corner `(x, y)`,
width `w`, height `h`. -/
structure Rect where
  x : ℝ
  y : ℝ
  w : ℝ
  h : ℝ

/-- `rect.left`. -/
def Rect.left (r : Rect) : ℝ := r.x

/-- `rect.right = x + w`. -/
def Rect.right (r : Rect) : ℝ := r.x + r.w

/-- `rect.top`. -/
def Rect.top (r : Rect) : ℝ := r.y

/-- `rect.bottom = y + h`. -/
def Rect.bottom (r : Rect) : ℝ := r.y + r.h

/-- A paddle: its rectangle and its manual-motion speed (`Paddle.__init__`). -/
structure Paddle where
  rect : Rect
  speed : ℝ

/-- `Paddle.move_to`: set the paddle's vertical center to
`max(PADDLE_H//2, min(HEIGHT - PADDLE_H//2, int(y)))`; pygame's `centery`
setter writes `rect.y = value - rect.h // 2`. -/
def Paddle.move_to (p : Paddle) (y : ℝ) : Paddle :=
  { p with rect :=
    { p.rect with y := max (PADDLE_H / 2) (min (HEIGHT - PADDLE_H / 2) y) - p.rect.h / 2 } }

/-- `Paddle.move_by`: shift `rect.y` by `dy`, then clamp `top` to `0` and
`bottom` to `HEIGHT`, in that order. -/
def Paddle.move_by (p : Paddle) (dy : ℝ) : Paddle :=
  let r1 : Rect := { p.rect with y := p.rect.y + dy }
  let r2 : Rect := if r1.top < 0 then { r1 with y := 0 } else r1
  let r3 : Rect := if r2.bottom > HEIGHT then { r2 with y := HEIGHT - r2.h } else r2
  { p with rect := r3 }

/-- Serving side for `Ball.reset` (`'left'` / `'right'` string argument). -/
inductive Side where
  | left : Side
  | right : Side

/-- The ball: position, radius, cached scalar speed, and velocity. -/
structure Ball where
  x : ℝ
  y : ℝ
  r : ℝ
  speed : ℝ
  vx : ℝ
  vy : ℝ

/-- `Ball.reset`: recenter the ball, restore the base speed, and relaunch at
`angle` (drawn from `[-π/6, π/6]`), with the horizontal direction forced by
`serving_to` when given and decided by the `coin` draw otherwise. -/
def Ball.reset (_ : Ball) (serving_to : Option Side) (angle : ℝ) (coin : Bool) : Ball :=
  let dirx : ℝ :=
    match serving_to with
    | some Side.left => -1
    | some Side.right => 1
    | none => if coin then -1 else 1
  { x := WIDTH / 2
    y := HEIGHT / 2
    r := BALL_RADIUS
    speed := BALL_SPEED
    vx := dirx * BALL_SPEED * Real.cos angle
    vy := BALL_SPEED * Real.sin angle }

/-- `Ball.update`: advance the position by the velocity once. -/
def Ball.update (b : Ball) : Ball :=
  { b with x := b.x + b.vx, y := b.y + b.vy }

/-- `circle_rect_collision`: clamp the circle center into the rectangle and
compare the squared distance against `r * r`. -/
def circle_rect_collision (cx cy r : ℝ) (rect : Rect) : Prop :=
  let closest_x := max rect.left (min cx rect.right)
  let closest_y := max rect.top (min cy rect.bottom)
  let dx := cx - closest_x
  let dy := cy - closest_y
  dx * dx + dy * dy ≤ r * r

/-- `reflect_ball_from_paddle`: angle-dependent rebound.  The impact offset is
clamped to `[-1, 1]`, scaled to at most 45°, the speed ramps by
`BALL_SPEED_INC` capped at `BALL_MAX_SPEED`, and the horizontal sign is
forced away from the struck paddle. -/
def reflect_ball_from_paddle (ball : Ball) (paddle : Paddle) (is_left_paddle : Bool) : Ball :=
  let paddle_center := paddle.rect.top + paddle.rect.h / 2
  let relative0 := (ball.y - paddle_center) / (paddle.rect.h / 2)
  let relative := max (-1) (min 1 relative0)
  let bounce_angle := relative * (Real.pi / 4)
  let speed := min BALL_MAX_SPEED (hypot ball.vx ball.vy + BALL_SPEED_INC)
  { ball with
    vx := if is_left_paddle then abs (speed * Real.cos bounce_angle)
          else -abs (speed * Real.cos bounce_angle)
    vy := speed * Real.sin bounce_angle
    speed := speed }

/-- The simulation state owned by the main loop. -/
structure GameState where
  left_paddle : Paddle
  right_paddle : Paddle
  ball : Ball
  left_score : ℕ
  right_score : ℕ
  paused : Bool

/-- The per-tick input snapshot: SPACE press, R press, last MOUSEMOTION
vertical position, and the held arrow keys. -/
structure Input where
  space : Bool
  rkey : Bool
  mouse : Option ℝ
  keyUp : Bool
  keyDown : Bool

/-- The random draws a tick may consume: one (angle, coin) pair for an
R-key `Ball.reset` and one for a scoring `Ball.reset`. -/
structure Rand where
  rAngle : ℝ
  rCoin : Bool
  sAngle : ℝ
  sCoin : Bool

/-- The event-queue pass of the loop body: SPACE toggles `paused`, R zeroes
both scores, resets the ball unbiased and clears `paused`, MOUSEMOTION moves
the left paddle to the pointer. -/
def handleEvents (s : GameState) (i : Input) (rd : Rand) : GameState :=
  let s1 := if i.space then { s with paused := !s.paused } else s
  let s2 := if i.rkey then
      { s1 with left_score := 0, right_score := 0,
                ball := s1.ball.reset none rd.rAngle rd.rCoin, paused := false }
    else s1
  match i.mouse with
  | some my => { s2 with left_paddle := s2.left_paddle.move_to my }
  | none => s2

/-- The held-key scan: Up then Down move the left paddle by `±speed`. -/
def applyKeys (s : GameState) (i : Input) : GameState :=
  let s1 := if i.keyUp then
      { s with left_paddle := s.left_paddle.move_by (-s.left_paddle.speed) } else s
  if i.keyDown then
    { s1 with left_paddle := s1.left_paddle.move_by s1.left_paddle.speed } else s1

/-- Everything of the loop body that precedes the pause check: events, then
held keys. -/
def prePhysics (s : GameState) (i : Input) (rd : Rand) : GameState :=
  applyKeys (handleEvents s i rd) i

/-- The AI step: track the ball's vertical position with a 4-pixel dead zone
and the `AI_MAX_SPEED` cap. -/
def aiStep (s : GameState) : GameState :=
  let diff := s.ball.y - (s.right_paddle.rect.top + s.right_paddle.rect.h / 2)
  if 4 < |diff| then
    { s with right_paddle :=
        s.right_paddle.move_by (max (-AI_MAX_SPEED) (min AI_MAX_SPEED diff)) }
  else s

/-- Advance the ball by its velocity (`ball.update()`). -/
def ballMove (s : GameState) : GameState :=
  { s with ball := s.ball.update }

/-- Top/bottom wall collision: reflect `vy` and clamp `y` back inside. -/
def wallStep (s : GameState) : GameState :=
  let b := s.ball
  if b.y - b.r ≤ 0 then { s with ball := { b with y := b.r, vy := -b.vy } }
  else if HEIGHT ≤ b.y + b.r then { s with ball := { b with y := HEIGHT - b.r, vy := -b.vy } }
  else s

/-- Paddle collisions, left paddle first: snap the ball just outside the
struck paddle's inner edge, then rebound. -/
def paddleStep (s : GameState) : GameState :=
  let s1 :=
    if circle_rect_collision s.ball.x s.ball.y s.ball.r s.left_paddle.rect then
      let b1 : Ball := { s.ball with x := s.left_paddle.rect.right + s.ball.r }
      { s with ball := reflect_ball_from_paddle b1 s.left_paddle true }
    else s
  if circle_rect_collision s1.ball.x s1.ball.y s1.ball.r s1.right_paddle.rect then
    let b2 : Ball := { s1.ball with x := s1.right_paddle.rect.left - s1.ball.r }
    { s1 with ball := reflect_ball_from_paddle b2 s1.right_paddle false }
  else s1

/-- Score detection: ball past the left edge scores for the right side and
serves right; past the right edge scores for the left side and serves left. -/
def scoreStep (s : GameState) (rd : Rand) : GameState :=
  if s.ball.x - s.ball.r ≤ 0 then
    { s with right_score := s.right_score + 1,
             ball := s.ball.reset (some Side.right) rd.sAngle rd.sCoin }
  else if WIDTH ≤ s.ball.x + s.ball.r then
    { s with left_score := s.left_score + 1,
             ball := s.ball.reset (some Side.left) rd.sAngle rd.sCoin }
  else s

/-- The physics pipeline run when not paused: AI, ball advance, wall
collision, paddle collisions. -/
def physics (s : GameState) : GameState :=
  paddleStep (wallStep (ballMove (aiStep s)))

/-- One loop-body iteration: events and keys, then — unless paused — the
physics pipeline and the scoring check. -/
def tick (s : GameState) (i : Input) (rd : Rand) : GameState :=
  let s1 := prePhysics s i rd
  if s1.paused then s1 else scoreStep (physics s1) rd

/-- A paddle's rectangle lies fully inside the field vertically. -/
def inField (p : Paddle) : Prop :=
  0 ≤ p.rect.top ∧ p.rect.bottom ≤ HEIGHT

/-- A single paddle-motion command: positional (`move_to`) or relative
(`move_by`). -/
inductive PadMove where
  | goTo (y : ℝ) : PadMove
  | goBy (dy : ℝ) : PadMove

/-- Apply one motion command to a paddle. -/
def applyMove (p : Paddle) : PadMove → Paddle
  | PadMove.goTo y => p.move_to y
  | PadMove.goBy dy => p.move_by dy

/-- Apply a sequence of motion commands to a paddle. -/
def applyMoves (p : Paddle) (ms : List PadMove) : Paddle :=
  ms.foldl applyMove p

/-! ### Concrete demonstration states used by witnesses -/

/-- A left paddle at its initial position. -/
def demoPaddleL : Paddle := ⟨⟨20, 200, 12, 100⟩, 7⟩

/-- A right paddle at its initial position (centered on `y = 250`). -/
def demoPaddleR : Paddle := ⟨⟨768, 200, 12, 100⟩, 7⟩

/-- A ball at field center moving right. -/
def demoBall : Ball := ⟨400, 250, 8, 5, 5, 0⟩

/-- A running state with the ball at the center. -/
def demoState : GameState := ⟨demoPaddleL, demoPaddleR, demoBall, 0, 0, false⟩

/-- The same state, paused. -/
def demoPausedState : GameState := ⟨demoPaddleL, demoPaddleR, demoBall, 0, 0, true⟩

/-- An input snapshot with no events and no held keys. -/
def quietInputAux : Input := ⟨false, false, none, false, false⟩

/-- An input snapshot carrying only a mouse-motion event. -/
def mouseInputAux : Input := ⟨false, false, some 123, false, false⟩

/-- One concrete pair of random draws. -/
def demoRand : Rand := ⟨0, true, 0, true⟩

/-- A different concrete pair of random draws. -/
def demoRand2 : Rand := ⟨1, false, 1, false⟩

/-- A running state whose ball has just crossed the left boundary region. -/
def exitBall : Ball := ⟨5, 250, 8, 5, -5, 0⟩

/-- A running state about to register a left-boundary exit. -/
def exitState : GameState := ⟨demoPaddleL, demoPaddleR, exitBall, 0, 0, false⟩

/-- `exitState` after the AI step, the ball advance and the (vacuous) wall
and paddle collision steps. -/
def exitMoved : GameState := ⟨demoPaddleL, demoPaddleR, ⟨0, 250, 8, 5, -5, 0⟩, 0, 0, false⟩

/-- `demoState` after the AI step, ball advance, wall and paddle steps. -/
def demoMoved : GameState := ⟨demoPaddleL, demoPaddleR, ⟨405, 250, 8, 5, 5, 0⟩, 0, 0, false⟩

/-! ### Basic facts about the embedded primitives -/

lemma hypot_nonneg (a b : ℝ) : 0 ≤ hypot a b := Real.sqrt_nonneg _

lemma hypot_neg_right (a b : ℝ) : hypot a (-b) = hypot a b := by
  unfold hypot
  ring_nf

lemma cos_pos_of_abs_le_pi_div_four {x : ℝ} (h : |x| ≤ Real.pi / 4) : 0 < Real.cos x := by
  have hp := Real.pi_pos
  have h1 := abs_le.mp h
  exact Real.cos_pos_of_mem_Ioo ⟨by linarith [h1.1], by linarith [h1.2]⟩

lemma sqrt_two_div_two_le_cos {x : ℝ} (h : |x| ≤ Real.pi / 4) :
    Real.sqrt 2 / 2 ≤ Real.cos x := by
  have hp := Real.pi_pos
  have hc : Real.cos (Real.pi / 4) ≤ Real.cos |x| :=
    Real.cos_le_cos_of_nonneg_of_le_pi (abs_nonneg x) (by linarith) h
  rwa [Real.cos_pi_div_four, Real.cos_abs] at hc

lemma abs_sin_le_cos_of_abs_le_pi_div_four {x : ℝ} (h : |x| ≤ Real.pi / 4) :
    |Real.sin x| ≤ Real.cos x := by
  have hc := sqrt_two_div_two_le_cos h
  have h2 : Real.sqrt 2 ^ 2 = 2 := Real.sq_sqrt (by norm_num)
  have hpyth := Real.sin_sq_add_cos_sq x
  have hcpos : 0 < Real.cos x := cos_pos_of_abs_le_pi_div_four h
  have hs2 : Real.sin x ^ 2 ≤ Real.cos x ^ 2 := by
    nlinarith [Real.sqrt_nonneg 2, sq_nonneg (Real.cos x - Real.sqrt 2 / 2)]
  exact abs_le_of_sq_le_sq hs2 (le_of_lt hcpos)

lemma abs_sin_eq {x : ℝ} (h : |x| ≤ Real.pi) : |Real.sin x| = Real.sin |x| := by
  rcases le_or_lt 0 x with hx | hx
  · rw [abs_of_nonneg hx] at h ⊢
    rw [abs_of_nonneg (Real.sin_nonneg_of_nonneg_of_le_pi hx h)]
  · have hx' : 0 ≤ -x := by linarith
    rw [abs_of_neg hx] at h ⊢
    have hs : 0 ≤ Real.sin (-x) := Real.sin_nonneg_of_nonneg_of_le_pi hx' h
    have hsx : Real.sin x ≤ 0 := by
      rw [Real.sin_neg] at hs
      linarith
    rw [abs_of_nonpos hsx, ← Real.sin_neg]

lemma abs_sin_le_sin_pi_div_six {x : ℝ} (h : |x| ≤ Real.pi / 6) :
    |Real.sin x| ≤ Real.sin (Real.pi / 6) := by
  have hp := Real.pi_pos
  have habs : |Real.sin x| = Real.sin |x| := abs_sin_eq (by linarith [abs_le.mp h, abs_nonneg x])
  rw [habs]
  exact Real.sin_le_sin_of_le_of_le_pi_div_two (by linarith [abs_nonneg x]) (by linarith) h

lemma clamp_abs_le_one (r0 : ℝ) : |max (-1) (min 1 r0)| ≤ 1 := by
  rw [abs_le]
  exact ⟨le_max_left _ _, max_le (by norm_num) (min_le_left _ _)⟩

lemma bounce_angle_abs_le (r0 : ℝ) :
    |max (-1) (min 1 r0) * (Real.pi / 4)| ≤ Real.pi / 4 := by
  have hp := Real.pi_pos
  rw [abs_mul, abs_of_pos (by linarith : (0:ℝ) < Real.pi / 4)]
  calc |max (-1) (min 1 r0)| * (Real.pi / 4) ≤ 1 * (Real.pi / 4) :=
        mul_le_mul_of_nonneg_right (clamp_abs_le_one r0) (by linarith)
    _ = Real.pi / 4 := one_mul _

lemma refl_speed_pos (vx vy : ℝ) :
    0 < min BALL_MAX_SPEED (hypot vx vy + BALL_SPEED_INC) := by
  have h := hypot_nonneg vx vy
  have hinc : (0:ℝ) < BALL_SPEED_INC := by norm_num [BALL_SPEED_INC]
  apply lt_min
  · norm_num [BALL_MAX_SPEED]
  · linarith

lemma reflect_vx (b : Ball) (p : Paddle) (il : Bool) :
    (reflect_ball_from_paddle b p il).vx =
      if il
      then abs (min BALL_MAX_SPEED (hypot b.vx b.vy + BALL_SPEED_INC) *
        Real.cos (max (-1) (min 1 ((b.y - (p.rect.top + p.rect.h / 2)) / (p.rect.h / 2))) *
          (Real.pi / 4)))
      else -abs (min BALL_MAX_SPEED (hypot b.vx b.vy + BALL_SPEED_INC) *
        Real.cos (max (-1) (min 1 ((b.y - (p.rect.top + p.rect.h / 2)) / (p.rect.h / 2))) *
          (Real.pi / 4))) := rfl

lemma reflect_vy (b : Ball) (p : Paddle) (il : Bool) :
    (reflect_ball_from_paddle b p il).vy =
      min BALL_MAX_SPEED (hypot b.vx b.vy + BALL_SPEED_INC) *
        Real.sin (max (-1) (min 1 ((b.y - (p.rect.top + p.rect.h / 2)) / (p.rect.h / 2))) *
          (Real.pi / 4)) := rfl

lemma reflect_speed (b : Ball) (p : Paddle) (il : Bool) :
    (reflect_ball_from_paddle b p il).speed =
      min BALL_MAX_SPEED (hypot b.vx b.vy + BALL_SPEED_INC) := rfl

/-! ### C3 — speed ramp on rebound, speed preserved by wall bounce -/

/-- C3: after a paddle rebound the cached speed equals
`min BALL_MAX_SPEED (hypot vx vy + BALL_SPEED_INC)`; hence, from any
pre-state whose speed `hypot vx vy` is at most the cap, the new speed is at
least the old one, and it never exceeds the cap.  A top/bottom wall bounce
changes neither the speed cache nor `hypot vx vy`. -/
theorem rebound_speed_ramp (b : Ball) (p : Paddle) (il : Bool) :
    (reflect_ball_from_paddle b p il).speed
        = min BALL_MAX_SPEED (hypot b.vx b.vy + BALL_SPEED_INC)
    ∧ (hypot b.vx b.vy ≤ BALL_MAX_SPEED →
        hypot b.vx b.vy ≤ (reflect_ball_from_paddle b p il).speed)
    ∧ (reflect_ball_from_paddle b p il).speed ≤ BALL_MAX_SPEED
    ∧ ∀ s : GameState,
        (wallStep s).ball.speed = s.ball.speed
        ∧ hypot (wallStep s).ball.vx (wallStep s).ball.vy = hypot s.ball.vx s.ball.vy := by
  have hinc : (0:ℝ) < BALL_SPEED_INC := by norm_num [BALL_SPEED_INC]
  refine ⟨reflect_speed b p il, ?_, ?_, ?_⟩
  · intro hle
    rw [reflect_speed]
    exact le_min hle (by linarith)
  · rw [reflect_speed]
    exact min_le_left _ _
  · intro s
    simp only [wallStep]
    split_ifs <;> simp [hypot_neg_right]

/-- Witness for the speed-monotonicity hypothesis of `rebound_speed_ramp`,
at a concrete ball with velocity `(3, 4)` (so `hypot = 5 ≤ 14`). -/
theorem rebound_speed_ramp_witness :
    hypot 3 4 ≤ BALL_MAX_SPEED
    ∧ hypot 3 4 ≤ (reflect_ball_from_paddle ⟨100, 250, 8, 5, 3, 4⟩ ⟨⟨20, 200, 12, 100⟩, 7⟩ true).speed := by
  have h5 : hypot 3 4 = 5 := by
    unfold hypot
    rw [show (3:ℝ) * 3 + 4 * 4 = 5 ^ 2 by norm_num, Real.sqrt_sq (by norm_num)]
  have h54 : hypot 3 4 ≤ BALL_MAX_SPEED := by
    rw [h5]
    norm_num [BALL_MAX_SPEED]
  exact ⟨h54, (rebound_speed_ramp ⟨100, 250, 8, 5, 3, 4⟩ ⟨⟨20, 200, 12, 100⟩, 7⟩ true).2.1 h54⟩

/-! ### C4 — rebound direction: away from the paddle, within 45° -/

/-- C4: every paddle rebound forces the horizontal velocity sign away from
the struck paddle (positive for the left paddle, negative for the right one)
whatever the incoming velocity, and the outgoing direction satisfies
`|vy| ≤ |vx|`, i.e. it is within 45° of the horizontal axis. -/
theorem rebound_direction (b : Ball) (p : Paddle) :
    0 < (reflect_ball_from_paddle b p true).vx
    ∧ (reflect_ball_from_paddle b p false).vx < 0
    ∧ ∀ il : Bool,
        |(reflect_ball_from_paddle b p il).vy| ≤ |(reflect_ball_from_paddle b p il).vx| := by
  have hsp := refl_speed_pos b.vx b.vy
  have hθ := bounce_angle_abs_le ((b.y - (p.rect.top + p.rect.h / 2)) / (p.rect.h / 2))
  have hcos := cos_pos_of_abs_le_pi_div_four hθ
  have hsin := abs_sin_le_cos_of_abs_le_pi_div_four hθ
  have hpos : 0 < min BALL_MAX_SPEED (hypot b.vx b.vy + BALL_SPEED_INC) *
      Real.cos (max (-1) (min 1 ((b.y - (p.rect.top + p.rect.h / 2)) / (p.rect.h / 2))) *
        (Real.pi / 4)) := mul_pos hsp hcos
  have habs : 0 < |min BALL_MAX_SPEED (hypot b.vx b.vy + BALL_SPEED_INC) *
      Real.cos (max (-1) (min 1 ((b.y - (p.rect.top + p.rect.h / 2)) / (p.rect.h / 2))) *
        (Real.pi / 4))| := abs_pos.mpr (ne_of_gt hpos)
  refine ⟨?_, ?_, ?_⟩
  · rw [reflect_vx]
    simpa using habs
  · rw [reflect_vx]
    simpa using neg_neg_of_pos habs
  · intro il
    rw [reflect_vx, reflect_vy]
    have hvy : |min BALL_MAX_SPEED (hypot b.vx b.vy + BALL_SPEED_INC) *
        Real.sin (max (-1) (min 1 ((b.y - (p.rect.top + p.rect.h / 2)) / (p.rect.h / 2))) *
          (Real.pi / 4))|
        ≤ min BALL_MAX_SPEED (hypot b.vx b.vy + BALL_SPEED_INC) *
        Real.cos (max (-1) (min 1 ((b.y - (p.rect.top + p.rect.h / 2)) / (p.rect.h / 2))) *
          (Real.pi / 4)) := by
      rw [abs_mul, abs_of_pos hsp]
      exact mul_le_mul_of_nonneg_left hsin (le_of_lt hsp)
    cases il <;> simp only [if_true, if_false, Bool.false_eq_true, ite_false, ite_true, abs_neg, abs_abs]
    · exact le_trans hvy (le_abs_self _)
    · exact le_trans hvy (le_abs_self _)

/-! ### C5 — serve/reset contract -/

/-- C5: `Ball.reset` recenters the ball; a serve biased left launches with
`vx < 0` and a serve biased right with `vx > 0`; in every case the launch
speed `hypot vx vy` is exactly `BALL_SPEED` and the vertical component obeys
the 30° cone bound `|vy| ≤ BALL_SPEED * sin (π/6)`. -/
theorem serve_reset_spec (b : Ball) (angle : ℝ) (coin : Bool)
    (h : |angle| ≤ Real.pi / 6) :
    (b.reset (some Side.left) angle coin).vx < 0
    ∧ 0 < (b.reset (some Side.right) angle coin).vx
    ∧ ∀ st : Option Side,
        (b.reset st angle coin).x = WIDTH / 2
        ∧ (b.reset st angle coin).y = HEIGHT / 2
        ∧ hypot (b.reset st angle coin).vx (b.reset st angle coin).vy = BALL_SPEED
        ∧ |(b.reset st angle coin).vy| ≤ BALL_SPEED * Real.sin (Real.pi / 6) := by
  have hp := Real.pi_pos
  have hcos : 0 < Real.cos angle :=
    cos_pos_of_abs_le_pi_div_four (le_trans h (by linarith))
  have hpyth := Real.sin_sq_add_cos_sq angle
  have hb5 : (0:ℝ) < BALL_SPEED := by norm_num [BALL_SPEED]
  have hsin := abs_sin_le_sin_pi_div_six h
  have hhyp : ∀ d : ℝ, d = 1 ∨ d = -1 →
      hypot (d * BALL_SPEED * Real.cos angle) (BALL_SPEED * Real.sin angle) = BALL_SPEED := by
    intro d hd
    unfold hypot
    have harg : d * BALL_SPEED * Real.cos angle * (d * BALL_SPEED * Real.cos angle)
        + BALL_SPEED * Real.sin angle * (BALL_SPEED * Real.sin angle) = BALL_SPEED ^ 2 := by
      rcases hd with h1 | h1 <;> subst h1 <;> nlinarith [hpyth]
    rw [harg, Real.sqrt_sq (le_of_lt hb5)]
  have hvy : |BALL_SPEED * Real.sin angle| ≤ BALL_SPEED * Real.sin (Real.pi / 6) := by
    rw [abs_mul, abs_of_pos hb5]
    exact mul_le_mul_of_nonneg_left hsin (le_of_lt hb5)
  refine ⟨?_, ?_, ?_⟩
  · show (-1 : ℝ) * BALL_SPEED * Real.cos angle < 0
    nlinarith
  · show (0:ℝ) < 1 * BALL_SPEED * Real.cos angle
    nlinarith
  · intro st
    rcases st with _ | side
    · rcases Bool.dichotomy coin with hc | hc <;> subst hc
      · exact ⟨rfl, rfl, by simpa [Ball.reset] using hhyp 1 (Or.inl rfl),
          by simpa [Ball.reset] using hvy⟩
      · exact ⟨rfl, rfl, by simpa [Ball.reset] using hhyp (-1) (Or.inr rfl),
          by simpa [Ball.reset] using hvy⟩
    · cases side
      · exact ⟨rfl, rfl, by simpa [Ball.reset] using hhyp (-1) (Or.inr rfl),
          by simpa [Ball.reset] using hvy⟩
      · exact ⟨rfl, rfl, by simpa [Ball.reset] using hhyp 1 (Or.inl rfl),
          by simpa [Ball.reset] using hvy⟩

/-- Witness for `serve_reset_spec` at the concrete serve angle `0`. -/
theorem serve_reset_spec_witness :
    |(0:ℝ)| ≤ Real.pi / 6
    ∧ (Ball.reset ⟨0, 0, 0, 0, 0, 0⟩ (some Side.left) 0 true).vx < 0 := by
  have h0 : |(0:ℝ)| ≤ Real.pi / 6 := by
    rw [abs_zero]
    positivity
  exact ⟨h0, (serve_reset_spec ⟨0, 0, 0, 0, 0, 0⟩ 0 true h0).1⟩

/-! ### Paddle motion lemmas -/

lemma move_to_h (p : Paddle) (y : ℝ) : (p.move_to y).rect.h = p.rect.h := rfl

lemma move_by_h (p : Paddle) (dy : ℝ) : (p.move_by dy).rect.h = p.rect.h := by
  simp only [Paddle.move_by, Rect.top, Rect.bottom]
  split_ifs <;> rfl

lemma move_to_inField (p : Paddle) (y : ℝ) (hh : p.rect.h = PADDLE_H) :
    inField (p.move_to y) := by
  unfold inField Paddle.move_to
  simp only [Rect.top, Rect.bottom, hh]
  constructor
  · have h1 : PADDLE_H / 2 ≤ max (PADDLE_H / 2) (min (HEIGHT - PADDLE_H / 2) y) :=
      le_max_left _ _
    have : PADDLE_H / 2 - PADDLE_H / 2 = (0:ℝ) := by ring
    linarith
  · have h2 : max (PADDLE_H / 2) (min (HEIGHT - PADDLE_H / 2) y) ≤ HEIGHT - PADDLE_H / 2 :=
      max_le (by norm_num [PADDLE_H, HEIGHT]) (min_le_left _ _)
    have : PADDLE_H - PADDLE_H / 2 = PADDLE_H / 2 := by ring
    linarith

lemma move_by_eq (p : Paddle) (dy : ℝ) :
    p.move_by dy =
      if p.rect.y + dy < 0 then
        (if 0 + p.rect.h > HEIGHT
         then ⟨⟨p.rect.x, HEIGHT - p.rect.h, p.rect.w, p.rect.h⟩, p.speed⟩
         else ⟨⟨p.rect.x, 0, p.rect.w, p.rect.h⟩, p.speed⟩)
      else if p.rect.y + dy + p.rect.h > HEIGHT
        then ⟨⟨p.rect.x, HEIGHT - p.rect.h, p.rect.w, p.rect.h⟩, p.speed⟩
        else ⟨⟨p.rect.x, p.rect.y + dy, p.rect.w, p.rect.h⟩, p.speed⟩ := by
  unfold Paddle.move_by
  dsimp only [Rect.top, Rect.bottom]
  split_ifs <;> rfl

lemma move_by_inField (p : Paddle) (dy : ℝ) (hh : p.rect.h ≤ HEIGHT) :
    inField (p.move_by dy) := by
  rw [move_by_eq]
  unfold inField
  split_ifs with hA hB hB <;> dsimp only [Rect.top, Rect.bottom] <;>
    constructor <;> linarith

lemma move_by_disp (p : Paddle) (dy : ℝ) (hin : inField p) (hh : p.rect.h ≤ HEIGHT) :
    |(p.move_by dy).rect.y - p.rect.y| ≤ |dy| := by
  obtain ⟨h1, h2⟩ := hin
  rw [Rect.top] at h1
  rw [Rect.bottom] at h2
  rw [move_by_eq]
  rcases abs_cases dy with ⟨he, hs⟩ | ⟨he, hs⟩ <;>
    split_ifs with hA hB hB <;> rw [abs_le] <;> constructor <;> dsimp <;> linarith

/-! ### C6 — the paddle rectangle never leaves the field -/

/-- C6: starting from a game paddle (height `PADDLE_H`) whose rectangle is
inside the field, any sequence of `move_to` / `move_by` calls with arbitrary
arguments keeps the rectangle fully inside the field vertically; since every
prefix of a sequence is itself a sequence, the invariant holds after each
call. -/
theorem paddle_stays_in_field (p : Paddle) (ms : List PadMove)
    (hh : p.rect.h = PADDLE_H) (h0 : inField p) :
    inField (applyMoves p ms) ∧ (applyMoves p ms).rect.h = PADDLE_H := by
  induction ms generalizing p with
  | nil => exact ⟨h0, hh⟩
  | cons m rest ih =>
    have step : inField (applyMove p m) ∧ (applyMove p m).rect.h = PADDLE_H := by
      cases m with
      | goTo y =>
        exact ⟨move_to_inField p y hh, by rw [applyMove, move_to_h, hh]⟩
      | goBy dy =>
        have hle : p.rect.h ≤ HEIGHT := by
          rw [hh]
          norm_num [PADDLE_H, HEIGHT]
        exact ⟨move_by_inField p dy hle, by rw [applyMove, move_by_h, hh]⟩
    have hfold : applyMoves p (m :: rest) = applyMoves (applyMove p m) rest := rfl
    rw [hfold]
    exact ih (applyMove p m) step.2 step.1

/-- Witness for `paddle_stays_in_field`: a concrete in-field paddle driven by
an out-of-range `move_to` and a large negative `move_by`. -/
theorem paddle_stays_in_field_witness :
    (⟨⟨20, 200, 12, 100⟩, 7⟩ : Paddle).rect.h = PADDLE_H
    ∧ inField ⟨⟨20, 200, 12, 100⟩, 7⟩
    ∧ inField (applyMoves ⟨⟨20, 200, 12, 100⟩, 7⟩ [PadMove.goTo 9999, PadMove.goBy (-777)]) := by
  have hh : (⟨⟨20, 200, 12, 100⟩, 7⟩ : Paddle).rect.h = PADDLE_H := by
    norm_num [PADDLE_H]
  have h0 : inField ⟨⟨20, 200, 12, 100⟩, 7⟩ := by
    constructor <;> norm_num [Rect.top, Rect.bottom, HEIGHT]
  exact ⟨hh, h0,
    (paddle_stays_in_field _ [PadMove.goTo 9999, PadMove.goBy (-777)] hh h0).1⟩

/-! ### Frame lemmas for the tick pipeline -/

lemma ballMove_frame (s : GameState) :
    (ballMove s).left_paddle = s.left_paddle
    ∧ (ballMove s).right_paddle = s.right_paddle
    ∧ (ballMove s).left_score = s.left_score
    ∧ (ballMove s).right_score = s.right_score
    ∧ (ballMove s).paused = s.paused :=
  ⟨rfl, rfl, rfl, rfl, rfl⟩

lemma aiStep_frame (s : GameState) :
    (aiStep s).left_paddle = s.left_paddle
    ∧ (aiStep s).ball = s.ball
    ∧ (aiStep s).left_score = s.left_score
    ∧ (aiStep s).right_score = s.right_score
    ∧ (aiStep s).paused = s.paused := by
  simp only [aiStep]
  split_ifs <;> exact ⟨rfl, rfl, rfl, rfl, rfl⟩

lemma wallStep_frame (s : GameState) :
    (wallStep s).left_paddle = s.left_paddle
    ∧ (wallStep s).right_paddle = s.right_paddle
    ∧ (wallStep s).left_score = s.left_score
    ∧ (wallStep s).right_score = s.right_score
    ∧ (wallStep s).paused = s.paused := by
  simp only [wallStep]
  split_ifs <;> exact ⟨rfl, rfl, rfl, rfl, rfl⟩

lemma paddleStep_frame (s : GameState) :
    (paddleStep s).left_paddle = s.left_paddle
    ∧ (paddleStep s).right_paddle = s.right_paddle
    ∧ (paddleStep s).left_score = s.left_score
    ∧ (paddleStep s).right_score = s.right_score
    ∧ (paddleStep s).paused = s.paused := by
  simp only [paddleStep]
  split_ifs <;> exact ⟨rfl, rfl, rfl, rfl, rfl⟩

lemma scoreStep_frame (s : GameState) (rd : Rand) :
    (scoreStep s rd).left_paddle = s.left_paddle
    ∧ (scoreStep s rd).right_paddle = s.right_paddle
    ∧ (scoreStep s rd).paused = s.paused := by
  simp only [scoreStep]
  split_ifs <;> exact ⟨rfl, rfl, rfl⟩

lemma physics_frame (s : GameState) :
    (physics s).left_paddle = s.left_paddle
    ∧ (physics s).right_paddle = (aiStep s).right_paddle
    ∧ (physics s).left_score = s.left_score
    ∧ (physics s).right_score = s.right_score
    ∧ (physics s).paused = s.paused := by
  have hp := paddleStep_frame (wallStep (ballMove (aiStep s)))
  have hw := wallStep_frame (ballMove (aiStep s))
  have hb := ballMove_frame (aiStep s)
  have ha := aiStep_frame s
  unfold physics
  exact ⟨by rw [hp.1, hw.1, hb.1, ha.1],
    by rw [hp.2.1, hw.2.1, hb.2.1],
    by rw [hp.2.2.1, hw.2.2.1, hb.2.2.1, ha.2.2.1],
    by rw [hp.2.2.2.1, hw.2.2.2.1, hb.2.2.2.1, ha.2.2.2.1],
    by rw [hp.2.2.2.2, hw.2.2.2.2, hb.2.2.2.2, ha.2.2.2.2]⟩

lemma prePhysics_no_events (s : GameState) (i : Input) (rd : Rand)
    (hs : i.space = false) (hr : i.rkey = false) :
    (prePhysics s i rd).right_paddle = s.right_paddle
    ∧ (prePhysics s i rd).ball = s.ball
    ∧ (prePhysics s i rd).left_score = s.left_score
    ∧ (prePhysics s i rd).right_score = s.right_score
    ∧ (prePhysics s i rd).paused = s.paused := by
  cases hm : i.mouse <;>
    simp [prePhysics, handleEvents, applyKeys, hs, hr, hm] <;>
    split_ifs <;> simp

lemma prePhysics_paused_toggle (s : GameState) (i : Input) (rd : Rand)
    (hs : i.space = true) (hr : i.rkey = false) :
    (prePhysics s i rd).paused = !s.paused := by
  cases hm : i.mouse <;>
    simp [prePhysics, handleEvents, applyKeys, hs, hr, hm] <;>
    split_ifs <;> simp

lemma prePhysics_rand_indep (s : GameState) (i : Input) (rd rd' : Rand)
    (hr : i.rkey = false) : prePhysics s i rd = prePhysics s i rd' := by
  cases hm : i.mouse <;>
    simp [prePhysics, handleEvents, applyKeys, hr, hm]

lemma prePhysics_quiet (s : GameState) (rd : Rand) :
    prePhysics s quietInputAux rd = s := by
  simp [prePhysics, handleEvents, applyKeys, quietInputAux]

/-! ### Step characterizations -/

lemma tick_paused (s : GameState) (i : Input) (rd : Rand)
    (h : (prePhysics s i rd).paused = true) : tick s i rd = prePhysics s i rd := by
  simp only [tick]
  rw [if_pos h]

lemma tick_running (s : GameState) (i : Input) (rd : Rand)
    (h : (prePhysics s i rd).paused = false) :
    tick s i rd = scoreStep (physics (prePhysics s i rd)) rd := by
  simp only [tick]
  rw [if_neg]
  rw [h]
  simp

lemma aiStep_no_move (s : GameState)
    (h : ¬ 4 < |s.ball.y - (s.right_paddle.rect.top + s.right_paddle.rect.h / 2)|) :
    aiStep s = s := by
  simp only [aiStep]
  rw [if_neg h]

lemma aiStep_move (s : GameState)
    (h : 4 < |s.ball.y - (s.right_paddle.rect.top + s.right_paddle.rect.h / 2)|) :
    aiStep s = { s with right_paddle := s.right_paddle.move_by (max (-AI_MAX_SPEED) (min AI_MAX_SPEED (s.ball.y - (s.right_paddle.rect.top + s.right_paddle.rect.h / 2)))) } := by
  simp only [aiStep]
  rw [if_pos h]

lemma wallStep_no_hit (s : GameState) (h1 : ¬ (s.ball.y - s.ball.r ≤ 0))
    (h2 : ¬ (HEIGHT ≤ s.ball.y + s.ball.r)) : wallStep s = s := by
  simp only [wallStep]
  rw [if_neg h1, if_neg h2]

lemma paddleStep_no_hit (s : GameState)
    (h1 : ¬ circle_rect_collision s.ball.x s.ball.y s.ball.r s.left_paddle.rect)
    (h2 : ¬ circle_rect_collision s.ball.x s.ball.y s.ball.r s.right_paddle.rect) :
    paddleStep s = s := by
  simp only [paddleStep]
  rw [if_neg h1, if_neg h2]

lemma scoreStep_no_score (s : GameState) (rd : Rand)
    (h1 : ¬ (s.ball.x - s.ball.r ≤ 0)) (h2 : ¬ (WIDTH ≤ s.ball.x + s.ball.r)) :
    scoreStep s rd = s := by
  simp only [scoreStep]
  rw [if_neg h1, if_neg h2]

lemma scoreStep_left_exit (s : GameState) (rd : Rand) (h1 : s.ball.x - s.ball.r ≤ 0) :
    scoreStep s rd = { s with right_score := s.right_score + 1, ball := s.ball.reset (some Side.right) rd.sAngle rd.sCoin } := by
  simp only [scoreStep]
  rw [if_pos h1]

lemma scoreStep_right_exit (s : GameState) (rd : Rand)
    (h1 : ¬ (s.ball.x - s.ball.r ≤ 0)) (h2 : WIDTH ≤ s.ball.x + s.ball.r) :
    scoreStep s rd = { s with left_score := s.left_score + 1, ball := s.ball.reset (some Side.left) rd.sAngle rd.sCoin } := by
  simp only [scoreStep]
  rw [if_neg h1, if_pos h2]

lemma reset_vx_pos (b : Ball) (angle : ℝ) (coin : Bool) (h : |angle| ≤ Real.pi / 6) :
    0 < (b.reset (some Side.right) angle coin).vx := by
  have hp := Real.pi_pos
  have hcos : 0 < Real.cos angle :=
    cos_pos_of_abs_le_pi_div_four (le_trans h (by linarith))
  have hb5 : (0:ℝ) < BALL_SPEED := by norm_num [BALL_SPEED]
  show (0:ℝ) < 1 * BALL_SPEED * Real.cos angle
  nlinarith

lemma reset_vx_neg (b : Ball) (angle : ℝ) (coin : Bool) (h : |angle| ≤ Real.pi / 6) :
    (b.reset (some Side.left) angle coin).vx < 0 := by
  have hp := Real.pi_pos
  have hcos : 0 < Real.cos angle :=
    cos_pos_of_abs_le_pi_div_four (le_trans h (by linarith))
  have hb5 : (0:ℝ) < BALL_SPEED := by norm_num [BALL_SPEED]
  show (-1:ℝ) * BALL_SPEED * Real.cos angle < 0
  nlinarith

lemma ai_clamp_abs_le (d : ℝ) :
    |max (-AI_MAX_SPEED) (min AI_MAX_SPEED d)| ≤ AI_MAX_SPEED := by
  rw [abs_le]
  exact ⟨le_max_left _ _,
    max_le (by norm_num [AI_MAX_SPEED]) (min_le_left _ _)⟩

/-! ### C7 — pause freezes ball and scores -/

/-- C7: while the pause flag is set and neither SPACE nor R arrives, a tick
leaves the ball (position and velocity) and both scores unchanged and stays
paused; when SPACE toggles pause off, that very tick resumes the physics
pipeline followed by the scoring check. -/
theorem pause_freezes_physics (s : GameState) (rd : Rand) :
    (∀ i : Input, s.paused = true → i.space = false → i.rkey = false →
      (tick s i rd).ball = s.ball
      ∧ (tick s i rd).right_paddle = s.right_paddle
      ∧ (tick s i rd).left_score = s.left_score
      ∧ (tick s i rd).right_score = s.right_score
      ∧ (tick s i rd).paused = true)
    ∧ (∀ i : Input, s.paused = true → i.space = true → i.rkey = false →
      (prePhysics s i rd).paused = false
      ∧ tick s i rd = scoreStep (physics (prePhysics s i rd)) rd) := by
  constructor
  · intro i hp hs hr
    obtain ⟨f1, f2, f3, f4, f5⟩ := prePhysics_no_events s i rd hs hr
    have hp1 : (prePhysics s i rd).paused = true := by rw [f5, hp]
    rw [tick_paused s i rd hp1]
    exact ⟨f2, f1, f3, f4, hp1⟩
  · intro i hp hs hr
    have hp1 : (prePhysics s i rd).paused = false := by
      rw [prePhysics_paused_toggle s i rd hs hr, hp]
      rfl
    exact ⟨hp1, tick_running s i rd hp1⟩

/-- Witness for `pause_freezes_physics` at a concrete paused state. -/
theorem pause_freezes_physics_witness :
    demoPausedState.paused = true
    ∧ (tick demoPausedState quietInputAux demoRand).ball = demoPausedState.ball
    ∧ (tick demoPausedState quietInputAux demoRand).left_score = demoPausedState.left_score := by
  have h := (pause_freezes_physics demoPausedState demoRand).1 quietInputAux rfl rfl rfl
  exact ⟨rfl, h.1, h.2.2.1⟩

/-! ### C10 — input still moves the human paddle while paused -/

/-- C10: during a paused tick (no SPACE, no R), a mouse-motion event moves
the left paddle via `move_to`, a held Up key moves it by `-speed` via
`move_by`, and a held Down key moves it by `+speed` via `move_by`, while
ball, scores and pause flag stay as they were: input handling precedes the
pause check. -/
theorem paused_input_still_moves_paddle (s : GameState) (rd : Rand) :
    (∀ i : Input, ∀ m : ℝ, s.paused = true → i.space = false → i.rkey = false →
        i.mouse = some m → i.keyUp = false → i.keyDown = false →
        tick s i rd = { s with left_paddle := s.left_paddle.move_to m })
    ∧ (∀ i : Input, s.paused = true → i.space = false → i.rkey = false →
        i.mouse = none → i.keyUp = true → i.keyDown = false →
        tick s i rd = { s with left_paddle := s.left_paddle.move_by (-s.left_paddle.speed) })
    ∧ (∀ i : Input, s.paused = true → i.space = false → i.rkey = false →
        i.mouse = none → i.keyUp = false → i.keyDown = true →
        tick s i rd = { s with left_paddle := s.left_paddle.move_by s.left_paddle.speed }) := by
  refine ⟨?_, ?_, ?_⟩
  · intro i m hp hs hr hm hu hd
    have hpre : prePhysics s i rd = { s with left_paddle := s.left_paddle.move_to m } := by
      simp [prePhysics, handleEvents, applyKeys, hs, hr, hm, hu, hd]
    have hp1 : (prePhysics s i rd).paused = true := by
      rw [hpre]
      exact hp
    rw [tick_paused s i rd hp1, hpre]
  · intro i hp hs hr hm hu hd
    have hpre : prePhysics s i rd = { s with left_paddle := s.left_paddle.move_by (-s.left_paddle.speed) } := by
      simp [prePhysics, handleEvents, applyKeys, hs, hr, hm, hu, hd]
    have hp1 : (prePhysics s i rd).paused = true := by
      rw [hpre]
      exact hp
    rw [tick_paused s i rd hp1, hpre]
  · intro i hp hs hr hm hu hd
    have hpre : prePhysics s i rd = { s with left_paddle := s.left_paddle.move_by s.left_paddle.speed } := by
      simp [prePhysics, handleEvents, applyKeys, hs, hr, hm, hu, hd]
    have hp1 : (prePhysics s i rd).paused = true := by
      rw [hpre]
      exact hp
    rw [tick_paused s i rd hp1, hpre]

/-- Witness for `paused_input_still_moves_paddle`: a concrete paused tick
with a mouse-motion event. -/
theorem paused_input_still_moves_paddle_witness :
    demoPausedState.paused = true
    ∧ mouseInputAux.mouse = some 123
    ∧ tick demoPausedState mouseInputAux demoRand
        = { demoPausedState with left_paddle := demoPausedState.left_paddle.move_to 123 } :=
  ⟨rfl, rfl, (paused_input_still_moves_paddle demoPausedState demoRand).1
    mouseInputAux 123 rfl rfl rfl rfl rfl rfl⟩

/-! ### C9 — determinism: the serve draw is the only nondeterminism -/

/-- C9: the embedded tick is a pure function of (state, input, random
draws), so equal states and inputs give equal successors; moreover, in any
tick in which `Ball.reset` is not invoked — no R key and no boundary
crossing at the scoring check — the successor does not depend on the random
draws at all. -/
theorem tick_deterministic_without_reset (s : GameState) (i : Input) (rd rd' : Rand)
    (hr : i.rkey = false)
    (h1 : ¬ ((physics (prePhysics s i rd)).ball.x - (physics (prePhysics s i rd)).ball.r ≤ 0))
    (h2 : ¬ (WIDTH ≤ (physics (prePhysics s i rd)).ball.x + (physics (prePhysics s i rd)).ball.r)) :
    tick s i rd = tick s i rd' := by
  have hpre := prePhysics_rand_indep s i rd rd' hr
  by_cases hp : (prePhysics s i rd).paused = true
  · rw [tick_paused s i rd hp, tick_paused s i rd' (by rw [← hpre]; exact hp), hpre]
  · have hp0 : (prePhysics s i rd).paused = false := by
      cases hb : (prePhysics s i rd).paused
      · rfl
      · exact absurd hb hp
    have hp0' : (prePhysics s i rd').paused = false := by
      rw [← hpre]
      exact hp0
    rw [tick_running s i rd hp0, tick_running s i rd' hp0', ← hpre]
    rw [scoreStep_no_score _ rd h1 h2, scoreStep_no_score _ rd' h1 h2]

lemma aiStep_demo : aiStep demoState = demoState := by
  apply aiStep_no_move
  have h0 : demoState.ball.y
      - (demoState.right_paddle.rect.top + demoState.right_paddle.rect.h / 2) = 0 := by
    norm_num [demoState, demoBall, demoPaddleR, Rect.top]
  rw [h0, abs_zero]
  norm_num

lemma ballMove_demo : ballMove demoState = demoMoved := by
  norm_num [ballMove, Ball.update, demoState, demoBall, demoMoved]

lemma wallStep_demo : wallStep demoMoved = demoMoved := by
  apply wallStep_no_hit <;> norm_num [demoMoved, HEIGHT]

lemma no_collision_demoL :
    ¬ circle_rect_collision demoMoved.ball.x demoMoved.ball.y demoMoved.ball.r
      demoPaddleL.rect := by
  simp only [circle_rect_collision, demoMoved, demoPaddleL,
    Rect.left, Rect.right, Rect.top, Rect.bottom]
  rw [min_eq_right (by norm_num : (20:ℝ) + 12 ≤ 405),
    max_eq_right (by norm_num : (20:ℝ) ≤ 20 + 12),
    min_eq_left (by norm_num : (250:ℝ) ≤ 200 + 100),
    max_eq_right (by norm_num : (200:ℝ) ≤ 250)]
  norm_num

lemma no_collision_demoR :
    ¬ circle_rect_collision demoMoved.ball.x demoMoved.ball.y demoMoved.ball.r
      demoPaddleR.rect := by
  simp only [circle_rect_collision, demoMoved, demoPaddleR,
    Rect.left, Rect.right, Rect.top, Rect.bottom]
  rw [min_eq_left (by norm_num : (405:ℝ) ≤ 768 + 12),
    max_eq_left (by norm_num : (405:ℝ) ≤ 768),
    min_eq_left (by norm_num : (250:ℝ) ≤ 200 + 100),
    max_eq_right (by norm_num : (200:ℝ) ≤ 250)]
  norm_num

lemma paddleStep_demo : paddleStep demoMoved = demoMoved :=
  paddleStep_no_hit _ no_collision_demoL no_collision_demoR

lemma physics_demo : physics (prePhysics demoState quietInputAux demoRand) = demoMoved := by
  rw [prePhysics_quiet]
  unfold physics
  rw [aiStep_demo, ballMove_demo, wallStep_demo, paddleStep_demo]

/-- Witness for `tick_deterministic_without_reset`: a concrete non-scoring
tick evaluated under two different pairs of random draws. -/
theorem tick_deterministic_without_reset_witness :
    quietInputAux.rkey = false
    ∧ ¬ ((physics (prePhysics demoState quietInputAux demoRand)).ball.x
        - (physics (prePhysics demoState quietInputAux demoRand)).ball.r ≤ 0)
    ∧ ¬ (WIDTH ≤ (physics (prePhysics demoState quietInputAux demoRand)).ball.x
        + (physics (prePhysics demoState quietInputAux demoRand)).ball.r)
    ∧ tick demoState quietInputAux demoRand = tick demoState quietInputAux demoRand2 := by
  have h1 : ¬ ((physics (prePhysics demoState quietInputAux demoRand)).ball.x
      - (physics (prePhysics demoState quietInputAux demoRand)).ball.r ≤ 0) := by
    rw [physics_demo]
    norm_num [demoMoved]
  have h2 : ¬ (WIDTH ≤ (physics (prePhysics demoState quietInputAux demoRand)).ball.x
      + (physics (prePhysics demoState quietInputAux demoRand)).ball.r) := by
    rw [physics_demo]
    norm_num [demoMoved, WIDTH]
  exact ⟨rfl, h1, h2,
    tick_deterministic_without_reset demoState quietInputAux demoRand demoRand2 rfl h1 h2⟩

/-! ### C8 — AI tracking with dead zone and speed cap -/

/-- C8: in a non-paused tick (no SPACE/R events), with `diff` the ball's
vertical position minus the right paddle's center: if `|diff| ≤ 4` the right
paddle does not move; if `|diff| > 4` it moves by
`clamp(diff, -AI_MAX_SPEED, AI_MAX_SPEED)` through the field-clamping
`move_by`; either way its vertical displacement in the tick is at most
`AI_MAX_SPEED`. -/
theorem ai_tracking_step (s : GameState) (i : Input) (rd : Rand)
    (hp : s.paused = false) (hs : i.space = false) (hr : i.rkey = false)
    (hin : inField s.right_paddle) (hh : s.right_paddle.rect.h = PADDLE_H) :
    (|s.ball.y - (s.right_paddle.rect.top + s.right_paddle.rect.h / 2)| ≤ 4 →
        (tick s i rd).right_paddle = s.right_paddle)
    ∧ (4 < |s.ball.y - (s.right_paddle.rect.top + s.right_paddle.rect.h / 2)| →
        (tick s i rd).right_paddle = s.right_paddle.move_by (max (-AI_MAX_SPEED) (min AI_MAX_SPEED (s.ball.y - (s.right_paddle.rect.top + s.right_paddle.rect.h / 2)))))
    ∧ |(tick s i rd).right_paddle.rect.y - s.right_paddle.rect.y| ≤ AI_MAX_SPEED := by
  obtain ⟨f1, f2, f3, f4, f5⟩ := prePhysics_no_events s i rd hs hr
  have hp1 : (prePhysics s i rd).paused = false := by rw [f5, hp]
  have ht : (tick s i rd).right_paddle = (aiStep (prePhysics s i rd)).right_paddle := by
    rw [tick_running s i rd hp1, (scoreStep_frame _ _).2.1, (physics_frame _).2.1]
  have hd : (prePhysics s i rd).ball.y - ((prePhysics s i rd).right_paddle.rect.top
      + (prePhysics s i rd).right_paddle.rect.h / 2)
      = s.ball.y - (s.right_paddle.rect.top + s.right_paddle.rect.h / 2) := by
    rw [f1, f2]
  have case1 : |s.ball.y - (s.right_paddle.rect.top + s.right_paddle.rect.h / 2)| ≤ 4 →
      (tick s i rd).right_paddle = s.right_paddle := by
    intro hle
    rw [ht, aiStep_no_move _ (by rw [hd]; exact not_lt.mpr hle), f1]
  have case2 : 4 < |s.ball.y - (s.right_paddle.rect.top + s.right_paddle.rect.h / 2)| →
      (tick s i rd).right_paddle = s.right_paddle.move_by (max (-AI_MAX_SPEED) (min AI_MAX_SPEED (s.ball.y - (s.right_paddle.rect.top + s.right_paddle.rect.h / 2)))) := by
    intro hgt
    rw [ht, aiStep_move _ (by rw [hd]; exact hgt)]
    dsimp only
    rw [f1, f2]
  refine ⟨case1, case2, ?_⟩
  rcases le_or_lt (|s.ball.y - (s.right_paddle.rect.top + s.right_paddle.rect.h / 2)|) 4
    with hle | hgt
  · rw [case1 hle]
    simp only [sub_self, abs_zero]
    norm_num [AI_MAX_SPEED]
  · rw [case2 hgt]
    have hhle : s.right_paddle.rect.h ≤ HEIGHT := by
      rw [hh]
      norm_num [PADDLE_H, HEIGHT]
    exact le_trans (move_by_disp _ _ hin hhle) (ai_clamp_abs_le _)

/-- Witness for `ai_tracking_step` at a concrete running state. -/
theorem ai_tracking_step_witness :
    demoState.paused = false
    ∧ inField demoState.right_paddle
    ∧ demoState.right_paddle.rect.h = PADDLE_H
    ∧ |(tick demoState quietInputAux demoRand).right_paddle.rect.y
        - demoState.right_paddle.rect.y| ≤ AI_MAX_SPEED := by
  have hin : inField demoState.right_paddle := by
    constructor <;> norm_num [demoState, demoPaddleR, Rect.top, Rect.bottom, HEIGHT]
  have hh : demoState.right_paddle.rect.h = PADDLE_H := rfl
  exact ⟨rfl, hin, hh,
    (ai_tracking_step demoState quietInputAux demoRand rfl rfl rfl hin hh).2.2⟩

/-! ### C2 — score increments exactly characterize boundary crossings -/

/-- C2: with the game ball (radius `BALL_RADIUS`), at the scoring check the
left score increments exactly when the ball's right edge `x + r` has reached
or crossed the right boundary, the right score exactly when the ball's left
edge `x - r` has reached or crossed the left boundary, and no single check
increments both; in a non-paused tick the scoring check is applied to the
state produced by the physics pipeline. -/
theorem score_increment_iff (s : GameState) (rd : Rand) (hr : s.ball.r = BALL_RADIUS) :
    ((scoreStep s rd).left_score = s.left_score + 1 ↔ WIDTH ≤ s.ball.x + s.ball.r)
    ∧ ((scoreStep s rd).right_score = s.right_score + 1 ↔ s.ball.x - s.ball.r ≤ 0)
    ∧ ¬ ((scoreStep s rd).left_score = s.left_score + 1
        ∧ (scoreStep s rd).right_score = s.right_score + 1)
    ∧ ∀ i : Input, (prePhysics s i rd).paused = false →
        tick s i rd = scoreStep (physics (prePhysics s i rd)) rd := by
  have hrad : s.ball.r = 8 := hr
  by_cases hc1 : s.ball.x - s.ball.r ≤ 0
  · have hw : ¬ (WIDTH ≤ s.ball.x + s.ball.r) := by
      intro hcon
      rw [hrad] at hc1 hcon
      simp only [WIDTH] at hcon
      linarith
    rw [scoreStep_left_exit s rd hc1]
    dsimp only
    exact ⟨iff_of_false (by omega) hw, iff_of_true rfl hc1,
      fun hcon => absurd hcon.1 (by omega),
      fun i hip => tick_running s i rd hip⟩
  · by_cases hc2 : WIDTH ≤ s.ball.x + s.ball.r
    · rw [scoreStep_right_exit s rd hc1 hc2]
      dsimp only
      exact ⟨iff_of_true rfl hc2, iff_of_false (by omega) hc1,
        fun hcon => absurd hcon.2 (by omega),
        fun i hip => tick_running s i rd hip⟩
    · rw [scoreStep_no_score s rd hc1 hc2]
      exact ⟨iff_of_false (by omega) hc2, iff_of_false (by omega) hc1,
        fun hcon => absurd hcon.1 (by omega),
        fun i hip => tick_running s i rd hip⟩

/-- Witness for `score_increment_iff` at a concrete state. -/
theorem score_increment_iff_witness :
    demoState.ball.r = BALL_RADIUS
    ∧ ((scoreStep demoState demoRand).right_score = demoState.right_score + 1
        ↔ demoState.ball.x - demoState.ball.r ≤ 0) :=
  ⟨rfl, (score_increment_iff demoState demoRand rfl).2.1⟩

/-! ### C1 — scoring and serve direction (corrected) -/

/-- C1 counterexample: a concrete non-paused tick in which the ball's
leading edge crosses the LEFT boundary; the right side's score increments by
1, but the serve launches with `vx = 5 > 0`, i.e. toward the RIGHT side,
refuting the claim's "ball exits the left boundary: serve toward the left
side, so `vx < 0`". -/
theorem scoring_serve_direction_claim_false :
    exitState.paused = false
    ∧ (physics (prePhysics exitState quietInputAux demoRand)).ball.x
        - (physics (prePhysics exitState quietInputAux demoRand)).ball.r ≤ 0
    ∧ (tick exitState quietInputAux demoRand).right_score = exitState.right_score + 1
    ∧ (tick exitState quietInputAux demoRand).ball.vx = 5
    ∧ ¬ ((tick exitState quietInputAux demoRand).ball.vx < 0) := by
  have hai : aiStep exitState = exitState := by
    apply aiStep_no_move
    have h0 : exitState.ball.y
        - (exitState.right_paddle.rect.top + exitState.right_paddle.rect.h / 2) = 0 := by
      norm_num [exitState, exitBall, demoPaddleR, Rect.top]
    rw [h0, abs_zero]
    norm_num
  have hbm : ballMove exitState = exitMoved := by
    norm_num [ballMove, Ball.update, exitState, exitBall, exitMoved]
  have hws : wallStep exitMoved = exitMoved := by
    apply wallStep_no_hit <;> norm_num [exitMoved, HEIGHT]
  have hcl : ¬ circle_rect_collision exitMoved.ball.x exitMoved.ball.y exitMoved.ball.r
      demoPaddleL.rect := by
    simp only [circle_rect_collision, exitMoved, demoPaddleL,
      Rect.left, Rect.right, Rect.top, Rect.bottom]
    rw [min_eq_left (by norm_num : (0:ℝ) ≤ 20 + 12),
      max_eq_left (by norm_num : (0:ℝ) ≤ 20),
      min_eq_left (by norm_num : (250:ℝ) ≤ 200 + 100),
      max_eq_right (by norm_num : (200:ℝ) ≤ 250)]
    norm_num
  have hcr : ¬ circle_rect_collision exitMoved.ball.x exitMoved.ball.y exitMoved.ball.r
      demoPaddleR.rect := by
    simp only [circle_rect_collision, exitMoved, demoPaddleR,
      Rect.left, Rect.right, Rect.top, Rect.bottom]
    rw [min_eq_left (by norm_num : (0:ℝ) ≤ 768 + 12),
      max_eq_left (by norm_num : (0:ℝ) ≤ 768),
      min_eq_left (by norm_num : (250:ℝ) ≤ 200 + 100),
      max_eq_right (by norm_num : (200:ℝ) ≤ 250)]
    norm_num
  have hps : paddleStep exitMoved = exitMoved := paddleStep_no_hit _ hcl hcr
  have hphys : physics (prePhysics exitState quietInputAux demoRand) = exitMoved := by
    rw [prePhysics_quiet]
    unfold physics
    rw [hai, hbm, hws, hps]
  have hx : exitMoved.ball.x - exitMoved.ball.r ≤ 0 := by
    norm_num [exitMoved]
  have htick : tick exitState quietInputAux demoRand
      = { exitMoved with right_score := exitMoved.right_score + 1, ball := exitMoved.ball.reset (some Side.right) demoRand.sAngle demoRand.sCoin } := by
    rw [tick_running _ _ _ (by rw [prePhysics_quiet]; rfl), hphys,
      scoreStep_left_exit _ _ hx]
  have hvx : (tick exitState quietInputAux demoRand).ball.vx = 5 := by
    rw [htick]
    show (1:ℝ) * BALL_SPEED * Real.cos demoRand.sAngle = 5
    rw [show demoRand.sAngle = 0 from rfl, Real.cos_zero]
    norm_num [BALL_SPEED]
  refine ⟨rfl, ?_, ?_, hvx, ?_⟩
  · rw [hphys]
    exact hx
  · rw [htick]
    rfl
  · rw [hvx]
    norm_num

/-- C1 (amended): at the scoring check, a ball whose leading edge has
crossed the LEFT boundary gives the right side one point and `Ball.reset`
is invoked biased toward the side that scored — the right side, so
`vx > 0` — with the ball recentered; symmetrically a right-boundary exit
gives the left side one point and serves toward the left side, so `vx < 0`;
in a non-paused tick the scoring check runs on the state produced by the
physics pipeline. -/
theorem scoring_serve_direction (s : GameState) (rd : Rand)
    (hA : |rd.sAngle| ≤ Real.pi / 6) :
    (s.ball.x - s.ball.r ≤ 0 →
        (scoreStep s rd).right_score = s.right_score + 1
        ∧ (scoreStep s rd).left_score = s.left_score
        ∧ (scoreStep s rd).ball = s.ball.reset (some Side.right) rd.sAngle rd.sCoin
        ∧ (scoreStep s rd).ball.x = WIDTH / 2
        ∧ 0 < (scoreStep s rd).ball.vx)
    ∧ (¬ (s.ball.x - s.ball.r ≤ 0) → WIDTH ≤ s.ball.x + s.ball.r →
        (scoreStep s rd).left_score = s.left_score + 1
        ∧ (scoreStep s rd).right_score = s.right_score
        ∧ (scoreStep s rd).ball = s.ball.reset (some Side.left) rd.sAngle rd.sCoin
        ∧ (scoreStep s rd).ball.x = WIDTH / 2
        ∧ (scoreStep s rd).ball.vx < 0)
    ∧ ∀ i : Input, (prePhysics s i rd).paused = false →
        tick s i rd = scoreStep (physics (prePhysics s i rd)) rd := by
  refine ⟨?_, ?_, fun i hip => tick_running s i rd hip⟩
  · intro hx
    rw [scoreStep_left_exit s rd hx]
    exact ⟨rfl, rfl, rfl, rfl, reset_vx_pos s.ball rd.sAngle rd.sCoin hA⟩
  · intro hx hw
    rw [scoreStep_right_exit s rd hx hw]
    exact ⟨rfl, rfl, rfl, rfl, reset_vx_neg s.ball rd.sAngle rd.sCoin hA⟩

/-- Witness for `scoring_serve_direction` at a concrete left-boundary exit. -/
theorem scoring_serve_direction_witness :
    |demoRand.sAngle| ≤ Real.pi / 6
    ∧ exitState.ball.x - exitState.ball.r ≤ 0
    ∧ (scoreStep exitState demoRand).right_score = exitState.right_score + 1
    ∧ 0 < (scoreStep exitState demoRand).ball.vx := by
  have hA : |demoRand.sAngle| ≤ Real.pi / 6 := by
    rw [show demoRand.sAngle = 0 from rfl, abs_zero]
    positivity
  have hx : exitState.ball.x - exitState.ball.r ≤ 0 := by
    norm_num [exitState, exitBall]
  have h := (scoring_serve_direction exitState demoRand hA).1 hx
  exact ⟨hA, hx, h.1, h.2.2.2.2⟩

end

end Pong
